import Mathlib

/-!
Shallow embedding of the resume-analyzer backend core pipeline:
text extraction (src/utils/fileParser.js), AI analysis orchestration
(src/utils/aiAnalyzer.js), the upload lifecycle controller
(src/controllers/resumeController.js) and the job scoring service
(src/services/jobService.js).

Modelling conventions:
* JavaScript strings are Lean `String` (lists of characters); `toLowerCase`
  is modelled per character (the source only deals with ASCII skill names and
  extensions), `String.prototype.includes` is substring containment.
* JSON numbers are modelled as integers (`Int`): none of the verified
  properties performs arithmetic on backend-supplied numbers.
* External effects (the pdf/docx extractor libraries, the generative
  backend round trips, the record store writes, the unlink syscall) are
  oracle parameters: each is an `Except`/`Bool` describing the outcome the
  outside world produced for this invocation.
* Numeric score arithmetic (`Math.round((m / t) * 100)`) is modelled as
  exact rational rounding (`round half up` on `(100 m) / t`).
-/

namespace ResumeAnalyzer

/-! JavaScript string primitives -/

/-- Whitespace class used by the source regexes (`\s`): space, tab, newline,
carriage return, vertical tab, form feed (ASCII subset of the JS class). -/
def jsWs (c : Char) : Bool :=
  c = ' ' || c = '\t' || c = '\n' || c = '\r' || c = Char.ofNat 11 || c = Char.ofNat 12

/-- Trim the JS whitespace class from both ends of a character list
(`String.prototype.trim`). -/
def trimChars (cs : List Char) : List Char :=
  ((cs.dropWhile jsWs).reverse.dropWhile jsWs).reverse

/-- Model of `String.prototype.trim`. -/
def jsTrim (s : String) : String := String.mk (trimChars s.data)

/-- Substring containment on character lists: true when `pat` occurs
contiguously inside `hay` (the empty pattern always occurs). -/
def hasSub : List Char → List Char → Bool
  | [], pat => pat.isEmpty
  | c :: t, pat => pat.isPrefixOf (c :: t) || hasSub t pat

/-- Model of `String.prototype.includes`. -/
def strIncludes (s pat : String) : Bool := hasSub s.data pat.data

/-- Model of `String.prototype.toLowerCase` (per-character; the source only
lower-cases ASCII extensions and skill tokens). -/
def strLower (s : String) : String := String.mk (s.data.map Char.toLower)

/-- Model of `replace(/\s+/g, ' ')`: collapse each maximal whitespace run to
a single space. -/
def collapseWs : List Char → List Char
  | [] => []
  | [c] => if jsWs c then [' '] else [c]
  | c1 :: c2 :: rest =>
    if jsWs c1 && jsWs c2 then collapseWs (c2 :: rest)
    else (if jsWs c1 then ' ' else c1) :: collapseWs (c2 :: rest)

/-- Whitespace normalisation applied by `parseResume` in
src/utils/fileParser.js: `text.replace(/\s+/g, ' ').trim()`. -/
def normalizeWs (s : String) : String := jsTrim (String.mk (collapseWs s.data))

/-! JSON values, as produced by `JSON.parse` -/

/-- JSON value tree. Numbers are modelled as integers (see the header
comment). -/
inductive Json where
  | null : Json
  | bool (b : Bool) : Json
  | num (n : Int) : Json
  | str (s : String) : Json
  | arr (elems : List Json) : Json
  | obj (fields : List (String × Json)) : Json

/-- Property lookup in an object field list (first, hence only, binding). -/
def lookupField : List (String × Json) → String → Option Json
  | [], _ => none
  | (k, v) :: rest, key => if k = key then some v else lookupField rest key

/-- Property assignment: replace the value of an existing key in place,
else append the binding (JS object insertion-order semantics). -/
def setField : List (String × Json) → String → Json → List (String × Json)
  | [], key, v => [(key, v)]
  | (k, w) :: rest, key, v =>
    if k = key then (key, v) :: rest else (k, w) :: setField rest key v

/-! A small executable model of `JSON.parse` (recursive descent with fuel).
It accepts a practical subset of JSON (integral numbers, the common string
escapes, no `\u` escapes); on everything it accepts it agrees with
`JSON.parse`, with duplicate object keys resolved last-wins as in JS. -/

def jsonWs (c : Char) : Bool := c = ' ' || c = '\t' || c = '\n' || c = '\r'

def skipWs (cs : List Char) : List Char := cs.dropWhile jsonWs

def digitVal (c : Char) : Nat := c.toNat - 48

def parseDigitsAux : List Char → Nat → (Nat × List Char)
  | [], acc => (acc, [])
  | c :: rest, acc =>
    if c.isDigit then parseDigitsAux rest (10 * acc + digitVal c) else (acc, c :: rest)

def escapeChar (c : Char) : Option Char :=
  if c = '"' then some '"'
  else if c = '\\' then some '\\'
  else if c = '/' then some '/'
  else if c = 'n' then some '\n'
  else if c = 't' then some '\t'
  else if c = 'r' then some '\r'
  else if c = 'b' then some (Char.ofNat 8)
  else if c = 'f' then some (Char.ofNat 12)
  else none

def parseStringChars : Nat → List Char → Option (List Char × List Char)
  | 0, _ => none
  | _ + 1, [] => none
  | fuel + 1, c :: rest =>
    if c = '"' then some ([], rest)
    else if c = '\\' then
      match rest with
      | [] => none
      | e :: rest2 =>
        match escapeChar e with
        | none => none
        | some ch =>
          match parseStringChars fuel rest2 with
          | none => none
          | some (cs, r) => some (ch :: cs, r)
    else
      match parseStringChars fuel rest with
      | none => none
      | some (cs, r) => some (c :: cs, r)

mutual

def parseValue : Nat → List Char → Option (Json × List Char)
  | 0, _ => none
  | fuel + 1, cs =>
    match skipWs cs with
    | [] => none
    | c :: rest =>
      if c = '"' then
        match parseStringChars (fuel + 1) rest with
        | none => none
        | some (chars, r) => some (Json.str (String.mk chars), r)
      else if c = 't' then
        if ['r', 'u', 'e'].isPrefixOf rest then some (Json.bool true, rest.drop 3) else none
      else if c = 'f' then
        if ['a', 'l', 's', 'e'].isPrefixOf rest then some (Json.bool false, rest.drop 4) else none
      else if c = 'n' then
        if ['u', 'l', 'l'].isPrefixOf rest then some (Json.null, rest.drop 3) else none
      else if c = '-' then
        match rest with
        | [] => none
        | d :: _ =>
          if d.isDigit then
            let p := parseDigitsAux rest 0
            some (Json.num (-(Int.ofNat p.1)), p.2)
          else none
      else if c.isDigit then
        let p := parseDigitsAux (c :: rest) 0
        some (Json.num (Int.ofNat p.1), p.2)
      else if c = '[' then
        match skipWs rest with
        | [] => none
        | d :: r2 =>
          if d = ']' then some (Json.arr [], r2) else parseArrayItems fuel rest []
      else if c = Char.ofNat 123 then
        match skipWs rest with
        | [] => none
        | d :: r2 =>
          if d = Char.ofNat 125 then some (Json.obj [], r2) else parseObjItems fuel rest []
      else none

def parseArrayItems : Nat → List Char → List Json → Option (Json × List Char)
  | 0, _, _ => none
  | fuel + 1, cs, acc =>
    match parseValue fuel cs with
    | none => none
    | some (v, r) =>
      match skipWs r with
      | [] => none
      | c :: r2 =>
        if c = ',' then parseArrayItems fuel r2 (acc ++ [v])
        else if c = ']' then some (Json.arr (acc ++ [v]), r2)
        else none

def parseObjItems : Nat → List Char → List (String × Json) → Option (Json × List Char)
  | 0, _, _ => none
  | fuel + 1, cs, acc =>
    match skipWs cs with
    | [] => none
    | c :: rest =>
      if c = '"' then
        match parseStringChars (fuel + 1) rest with
        | none => none
        | some (kcs, r) =>
          match skipWs r with
          | [] => none
          | c2 :: r2 =>
            if c2 = ':' then
              match parseValue fuel r2 with
              | none => none
              | some (v, r3) =>
                match skipWs r3 with
                | [] => none
                | c3 :: r4 =>
                  if c3 = ',' then parseObjItems fuel r4 (setField acc (String.mk kcs) v)
                  else if c3 = Char.ofNat 125 then
                    some (Json.obj (setField acc (String.mk kcs) v), r4)
                  else none
            else none
      else none

end

/-- Model of `JSON.parse`: parse one value, demand only trailing whitespace,
otherwise fail (the source wraps the failure into its own error). -/
def Json.parse (s : String) : Option Json :=
  match parseValue (2 * s.data.length + 8) s.data with
  | some (v, rest) => if (skipWs rest).isEmpty then some v else none
  | none => none

/-! src/utils/aiAnalyzer.js — the AnalysisClient -/

/-- Quota/rate-limit detection applied to the trial-call error
(`quotaError.message.includes('429') || quotaError.message.includes('quota')`). -/
def quotaSignal (msg : String) : Bool := strIncludes msg "429" || strIncludes msg "quota"

/-- Primary tier configuration name (`gemini-2.0-flash`, JSON mime type). -/
def primaryModelName : String := "gemini-2.0-flash"

/-- Fallback tier configuration name (`gemma-3-27b-it`, no JSON mime type). -/
def fallbackModelName : String := "gemma-3-27b-it"

/-- Tier selection phase of `analyzeResume`: a trial round trip on the
primary tier (its outcome is the oracle argument); on a quota-signalled
failure select the fallback tier (`useGemma = true`), on any other failure
rethrow the trial error. -/
def selectFallback : Except String Unit → Except String Bool
  | Except.ok _ => Except.ok false
  | Except.error msg => if quotaSignal msg then Except.ok true else Except.error msg

def backtick : Char := Char.ofNat 96

def fenceDelim : List Char := [backtick, backtick, backtick]

def jsonTag : List Char := ['j', 's', 'o', 'n']

/-- Take the characters strictly before the first occurrence of three
backticks; `none` when no such occurrence exists. -/
def splitAtTriple : List Char → Option (List Char)
  | [] => none
  | c :: cs =>
    if fenceDelim.isPrefixOf (c :: cs) then some []
    else (splitAtTriple cs).map (fun l => c :: l)

/-- First match of the source regex ```/```(?:json)?\s*([\s\S]*?)```/```:
scan for an opening triple backtick, optionally consume a literal `json`
tag, greedily consume whitespace, then capture lazily up to the next triple
backtick; on failure resume the scan one character later. -/
def fenceMatchAux : List Char → Option (List Char)
  | [] => none
  | c :: cs =>
    if fenceDelim.isPrefixOf (c :: cs) then
      let afterOpen := (c :: cs).drop 3
      let body := if jsonTag.isPrefixOf afterOpen then afterOpen.drop 4 else afterOpen
      match splitAtTriple (body.dropWhile jsWs) with
      | some cap => some cap
      | none => fenceMatchAux cs
    else fenceMatchAux cs

/-- Fallback-mode post-processing of the raw reply: if the fence regex
matches, replace the text by the trimmed capture group, else keep the raw
text (`text = jsonMatch[1].trim()`). -/
def stripFence (text : String) : String :=
  match fenceMatchAux text.data with
  | some cap => jsTrim (String.mk cap)
  | none => text

/-- JS property access `v.key` on a parsed JSON value: defined bindings on
objects, `undefined` (`none`) everywhere else (`null` is handled by the
callers that can reach it). -/
def getField : Json → String → Option Json
  | Json.obj fields, key => lookupField fields key
  | _, _ => none

/-- JS truthiness of a JSON value. -/
def truthy : Json → Bool
  | Json.null => false
  | Json.bool b => b
  | Json.num n => n != 0
  | Json.str s => s != ""
  | Json.arr _ => true
  | Json.obj _ => true

/-- JS `x || dflt` where `x` is a possibly-absent property. -/
def jsOr (x : Option Json) (dflt : Json) : Json :=
  match x with
  | some v => if truthy v then v else dflt
  | none => dflt

/-- JS optional chain `v.k1?.k2`. -/
def optChain2 (v : Json) (k1 k2 : String) : Option Json :=
  match getField v k1 with
  | none => none
  | some Json.null => none
  | some w => getField w k2

def validCategories : List String :=
  ["formatting", "content", "keywords", "impact", "structure"]

/-- JS object-literal spread `(...v)` of a JSON value into property
bindings. -/
def spreadFields : Json → List (String × Json)
  | Json.obj fields => fields
  | Json.arr xs => xs.enum.map (fun p => (toString p.1, p.2))
  | Json.str s => s.data.enum.map (fun p => (toString p.1, Json.str (String.mk [p.2])))
  | _ => []

/-- Per-tip normalisation: `{...tip, category: validCategories.includes(tip.category) ? tip.category : 'content'}`.
The property access `tip.category` throws a TypeError when the array
element is `null` (spreading `null` is legal, reading a property of it is
not), so a null tip fails the whole map; every other value yields an
object. -/
def normalizeTip (tip : Json) : Except String Json :=
  match tip with
  | Json.null => Except.error "Cannot read properties of null"
  | _ =>
    let cat : Json :=
      match getField tip "category" with
      | some (Json.str c) => if validCategories.contains c then Json.str c else Json.str "content"
      | _ => Json.str "content"
    Except.ok (Json.obj (setField (spreadFields tip) "category" cat))

/-- `Array.prototype.map` over the tips with JS exception propagation:
elements are processed left to right and the first throw aborts the map. -/
def mapTips : List Json → Except String (List Json)
  | [] => Except.ok []
  | t :: ts =>
    match normalizeTip t with
    | Except.error e => Except.error e
    | Except.ok o =>
      match mapTips ts with
      | Except.error e => Except.error e
      | Except.ok os => Except.ok (o :: os)

structure KeywordBuckets where
  hardSkills : Json
  softSkills : Json
  certifications : Json

/-- The structured value returned by `analyzeResume` (fields exactly as in
the source's return object; `aiSummary` renames the backend's `summary`). -/
structure AnalysisResultN where
  matchScore : Json
  missingKeywords : KeywordBuckets
  foundKeywords : KeywordBuckets
  actionableTips : List Json
  aiSummary : Json

/-- Defensive normalisation of the parsed backend reply into the result
object. Property access on `null` and `.map` on a truthy non-array throw in
JS; both surface as errors caught by the outer handler. -/
def normalizeAnalysis (aiResponse : Json) : Except String AnalysisResultN :=
  match aiResponse with
  | Json.null => Except.error "Cannot read properties of null"
  | resp =>
    match jsOr (getField resp "actionableTips") (Json.arr []) with
    | Json.arr tips =>
      match mapTips tips with
      | Except.error e => Except.error e
      | Except.ok tips2 =>
        Except.ok
          { matchScore := jsOr (getField resp "matchScore") (Json.num 0)
            missingKeywords :=
              { hardSkills := jsOr (optChain2 resp "missingKeywords" "hardSkills") (Json.arr [])
                softSkills := jsOr (optChain2 resp "missingKeywords" "softSkills") (Json.arr [])
                certifications := jsOr (optChain2 resp "missingKeywords" "certifications") (Json.arr []) }
            foundKeywords :=
              { hardSkills := jsOr (optChain2 resp "foundKeywords" "hardSkills") (Json.arr [])
                softSkills := jsOr (optChain2 resp "foundKeywords" "softSkills") (Json.arr [])
                certifications := jsOr (optChain2 resp "foundKeywords" "certifications") (Json.arr []) }
            actionableTips := tips2
            aiSummary := jsOr (getField resp "summary") (Json.str "") }
    | _ => Except.error "aiResponse.actionableTips.map is not a function"

/-- Fixed intro of the prompt, up to the interpolated resume text. -/
def promptIntro : String :=
  "You are an expert resume analyst and career coach. Analyze resumes and provide detailed, actionable feedback.\n\nAnalyze the following resume and provide a detailed assessment in JSON format. Current year is 2026 , avoid commenting on any dates\n\n**RESUME TEXT:**\n"

/-- Conditional compatibility-framing block appended when a job description
is supplied. -/
def jobDescriptionSection (jobDescription : String) : String :=
  "**JOB DESCRIPTION:**\n" ++ jobDescription ++ "\n\nCompare the resume against this job description.\n"

/-- Fixed tail of the prompt: required JSON shape (category and priority
enums spelled out) and the analysis criteria. -/
def promptFormatSection : String :=
  "**REQUIRED JSON OUTPUT FORMAT:**\n\x7b\n  \"matchScore\": <number 0-100>,\n  \"missingKeywords\": \x7b\n    \"hardSkills\": [<array of technical skills/tools missing>],\n    \"softSkills\": [<array of soft skills missing>],\n    \"certifications\": [<array of certifications that would help>]\n  \x7d,\n  \"foundKeywords\": \x7b\n    \"hardSkills\": [<array of technical skills/tools found>],\n    \"softSkills\": [<array of soft skills found>],\n    \"certifications\": [<array of certifications found>]\n  \x7d,\n  \"actionableTips\": [\n    \x7b\n      \"category\": \"<formatting|content|keywords|impact|structure>\",\n      \"suggestion\": \"<specific actionable tip>\",\n      \"priority\": \"<high|medium|low>\"\n    \x7d\n  ],\n  \"summary\": \"<2-3 sentence overall assessment>\"\n\x7d\n\n**ANALYSIS CRITERIA:**\n1. **Match Score**: If job description provided, score compatibility (0-100). Otherwise, score overall resume quality.\n2. **Keywords**: Identify technical skills, soft skills, and certifications.\n3. **Tips**: Focus on:\n   - Formatting improvements (bullet points, consistency)\n   - Content enhancements (quantify achievements, action verbs)\n   - Keyword optimization (ATS compatibility)\n   - Impact statements (results-oriented language)\n   - Structure (clear sections, logical flow)\n4. **Summary**: Provide constructive, encouraging feedback.\n\nReturn ONLY valid JSON matching the exact format above."

/-- `buildAnalysisPrompt(resumeText, jobDescription)`: resume text verbatim,
then — only when the job description is truthy (a non-empty string) — the
compatibility-framing block, then the fixed output-format section. -/
def buildAnalysisPrompt (resumeText : String) (jobDescription : String := "") : String :=
  let base := promptIntro ++ resumeText ++ "\n\n"
  let withJd := if jobDescription = "" then base else base ++ jobDescriptionSection jobDescription
  withJd ++ promptFormatSection

/-- Shared tail of both tiers: `JSON.parse` the (possibly fence-stripped)
text, then normalise; a parse failure throws the fixed invalid-JSON error. -/
def parseAndNormalize (text : String) : Except String AnalysisResultN :=
  match Json.parse text with
  | some v => normalizeAnalysis v
  | none => Except.error "AI returned invalid JSON response"

/-- Error classification of the outer catch block of `analyzeResume`. -/
def classifyError (msg : String) : String :=
  if strIncludes msg "API key" || strIncludes msg "API_KEY_INVALID" then
    "Invalid or missing Gemini API key. Check your .env file."
  else if strIncludes msg "quota" || strIncludes msg "RESOURCE_EXHAUSTED" then
    "Gemini API quota exceeded. Please try again later."
  else
    "AI analysis failed: " ++ msg

/-- Body of the outer `try` of `analyzeResume`: select the tier from the
trial outcome (both the trial outcome and the actual generation call are
oracles; `gen` maps the prompt that would be sent to the reply the backend
produced), strip code fencing only in fallback mode, then parse and
normalise. -/
def analyzeAttempt (trial : Except String Unit) (gen : String → Except String String)
    (resumeText : String) (jobDescription : String) : Except String AnalysisResultN :=
  match selectFallback trial with
  | Except.error msg => Except.error msg
  | Except.ok useGemma =>
    let prompt := buildAnalysisPrompt resumeText jobDescription
    match gen prompt with
    | Except.error msg => Except.error msg
    | Except.ok raw =>
      let text := if useGemma then stripFence raw else raw
      parseAndNormalize text

/-- `analyzeResume(resumeText, jobDescription = '')` with the two backend
round trips supplied as oracles. The function keeps no state across calls
(the `model` / `useGemma` locals of the source are function-scoped), so the
tier selection depends only on the present trial outcome. -/
def analyzeResume (trial : Except String Unit) (gen : String → Except String String)
    (resumeText : String) (jobDescription : String := "") : Except String AnalysisResultN :=
  match analyzeAttempt trial gen resumeText jobDescription with
  | Except.ok a => Except.ok a
  | Except.error msg => Except.error (classifyError msg)

/-! src/utils/fileParser.js — the TextExtractor -/

/-- `parsePDF`: the pdf-parse library call is an oracle; a library failure
is wrapped with the fixed prefix. -/
def parsePDF (pdfExtract : Except String String) : Except String String :=
  match pdfExtract with
  | Except.ok text => Except.ok text
  | Except.error msg => Except.error ("PDF parsing failed: " ++ msg)

/-- `parseDOCX`: the mammoth library call is an oracle; a library failure
is wrapped with the fixed prefix. -/
def parseDOCX (docxExtract : Except String String) : Except String String :=
  match docxExtract with
  | Except.ok text => Except.ok text
  | Except.error msg => Except.error ("DOCX parsing failed: " ++ msg)

/-- `parseResume(filePath)`: dispatch on the lower-cased extension, wrap
the library result, collapse whitespace, then fail when the normalised text
is empty or shorter than 50 characters. -/
def parseResume (ext : String) (pdfExtract docxExtract : Except String String) :
    Except String String :=
  let e := strLower ext
  let extracted : Except String String :=
    if e = ".pdf" then parsePDF pdfExtract
    else if e = ".docx" then parseDOCX docxExtract
    else Except.error "Unsupported file format. Only PDF and DOCX are allowed."
  match extracted with
  | Except.error msg => Except.error msg
  | Except.ok raw =>
    let text := normalizeWs raw
    if text = "" ∨ text.length < 50 then
      Except.error "Could not extract meaningful text from the file."
    else Except.ok text

/-! src/controllers/resumeController.js — the lifecycle manager -/

inductive RStatus where
  | processing : RStatus
  | completed : RStatus
  | failed : RStatus
deriving DecidableEq

/-- Projection of a persisted ResumeRecord to the fields the pipeline
writes (owner id and filename are opaque, timestamps are store-managed). -/
structure PersistedRecord where
  status : RStatus
  extractedText : String
  jobDescription : String
  analysis : Option AnalysisResultN

/-- Oracles for one invocation of the upload handler: the multer result,
the file extension, the extractor library outcomes, the optional
`jobDescription` body field, the AI backend round trips, and the outcomes
of the record-store writes and of the unlink syscall. -/
structure UploadEnv where
  fileProvided : Bool
  fileExt : String
  pdfExtract : Except String String
  docxExtract : Except String String
  jobDescriptionField : Option String
  trial : Except String Unit
  gen : String → Except String String
  createOk : Bool
  saveCompletedOk : Bool
  saveFailedOk : Bool
  unlinkOk : Bool

/-- Observable outcome of one invocation: the persisted record (as last
successfully written to the store), whether the temporary upload file is
still on disk, and the HTTP status of the response. -/
structure UploadOutcome where
  record : Option PersistedRecord
  tempFileRemains : Bool
  httpStatus : Nat

/-- Value of the controller local `jobDescription` after the
`jobDescription || ''` defaulting (an absent body field is `undefined`). -/
def jdOf (env : UploadEnv) : String :=
  match env.jobDescriptionField with
  | some s => s
  | none => ""

/-- `uploadResume(req, res)`: parse, create the record in `processing`,
analyze, move to a terminal status, clean up the temporary file, respond.
Every `await` that can reject is driven by the corresponding oracle; a
rejected store write leaves the previously persisted state in place and
falls through to the outer catch. Note the early `return` in the inner
catch (AI failure): it answers 500 before the cleanup step. -/
def uploadResume (env : UploadEnv) : UploadOutcome :=
  if env.fileProvided = false then
    { record := none, tempFileRemains := false, httpStatus := 400 }
  else
    match parseResume env.fileExt env.pdfExtract env.docxExtract with
    | Except.error _ =>
      { record := none, tempFileRemains := !env.unlinkOk, httpStatus := 500 }
    | Except.ok extractedText =>
      if env.createOk = false then
        { record := none, tempFileRemains := !env.unlinkOk, httpStatus := 500 }
      else
        match analyzeResume env.trial env.gen extractedText (jdOf env) with
        | Except.ok analysis =>
          if env.saveCompletedOk then
            { record := some
                { status := RStatus.completed, extractedText := extractedText,
                  jobDescription := jdOf env, analysis := some analysis },
              tempFileRemains := !env.unlinkOk, httpStatus := 201 }
          else if env.saveFailedOk then
            { record := some
                { status := RStatus.failed, extractedText := extractedText,
                  jobDescription := jdOf env, analysis := some analysis },
              tempFileRemains := true, httpStatus := 500 }
          else
            { record := some
                { status := RStatus.processing, extractedText := extractedText,
                  jobDescription := jdOf env, analysis := none },
              tempFileRemains := !env.unlinkOk, httpStatus := 500 }
        | Except.error _ =>
          if env.saveFailedOk then
            { record := some
                { status := RStatus.failed, extractedText := extractedText,
                  jobDescription := jdOf env, analysis := none },
              tempFileRemains := true, httpStatus := 500 }
          else
            { record := some
                { status := RStatus.processing, extractedText := extractedText,
                  jobDescription := jdOf env, analysis := none },
              tempFileRemains := !env.unlinkOk, httpStatus := 500 }

/-! src/services/jobService.js — SkillExtractor and JobMatcher -/

structure Job where
  id : String
  title : String
  company : String
  location : String
  description : String
  url : String
  salary : String
  category : String
  source : String
deriving DecidableEq

structure Skills where
  hardSkills : List String
  softSkills : List String
  certifications : List String
  allSkills : List String
deriving DecidableEq

structure FoundKeywordsDoc where
  hardSkills : List String
  softSkills : List String
  certifications : List String

structure AnalysisDoc where
  foundKeywords : Option FoundKeywordsDoc

/-- The slice of a stored resume document read by the job service. -/
structure ResumeDoc where
  analysis : Option AnalysisDoc

/-- `extractSkills(resume)`: the found-keyword buckets with `allSkills` the
concatenation of hard and soft skills (certifications excluded). -/
def extractSkills (resume : ResumeDoc) : Skills :=
  let fk : Option FoundKeywordsDoc :=
    match resume.analysis with
    | some a => a.foundKeywords
    | none => none
  match fk with
  | some k =>
    { hardSkills := k.hardSkills, softSkills := k.softSkills,
      certifications := k.certifications, allSkills := k.hardSkills ++ k.softSkills }
  | none => { hardSkills := [], softSkills := [], certifications := [], allSkills := [] }

/-- `buildSearchQuery(skills)`: at most the first three hard skills, else a
generic query. -/
def buildSearchQuery (skills : Skills) : String :=
  let topSkills := skills.hardSkills.take 3
  if topSkills.isEmpty then "software developer"
  else String.intercalate " " topSkills

/-- Exact rounding of `num / den` to the nearest integer, half up: the
formula the spec and the claim state for the match score (the code computes
it on binary64 doubles instead, see below). -/
def mathRound (num den : Nat) : Nat := (2 * num + den) / (2 * den)

/-! Binary64 (IEEE 754 double) model of the score arithmetic. The source
computes `Math.round((matchedCount / totalSkills) * 100)` on JS numbers: a
correctly rounded double division (round to nearest, ties to even), a
correctly rounded double multiplication by 100, then `Math.round`
(ECMAScript: the closest integral value, ties toward plus infinity). A
non-negative double is represented as a pair `(M, e)` of value `M * 2^e`.
The operands (a count and an array length) are exactly representable, and
the exponent overflow clamp is omitted as unreachable for values in
[0, 100]. -/

/-- Fuel-driven floor of log2 (kernel-reducible, unlike `Nat.log2`). -/
def natLog2Aux : Nat → Nat → Nat
  | 0, _ => 0
  | fuel + 1, n => if n ≥ 2 then natLog2Aux fuel (n / 2) + 1 else 0

def natLog2 (n : Nat) : Nat := natLog2Aux n n

/-- Round `num / den` to the nearest integer, ties to even (the IEEE 754
default rounding used for the mantissa). -/
def rne (num den : Nat) : Nat :=
  let q0 := num / den
  let r := num % den
  if 2 * r > den then q0 + 1
  else if 2 * r < den then q0
  else if q0 % 2 = 1 then q0 + 1 else q0

/-- Floor of log2 of the positive rational `p / q`. -/
def ratLog2 (p q : Nat) : Int :=
  let k : Int := (natLog2 p : Int) - (natLog2 q : Int)
  if 0 ≤ k then (if p ≥ q * 2 ^ k.toNat then k else k - 1)
  else (if p * 2 ^ (-k).toNat ≥ q then k else k - 1)

/-- Correctly rounded binary64 value of the non-negative rational `p / q`
(round to nearest, ties to even), as a mantissa-exponent pair, including
the subnormal range. -/
def b64OfRat (p q : Nat) : Nat × Int :=
  if p = 0 then (0, 0)
  else
    let er := ratLog2 p q
    if er < -1022 then (rne (p * 2 ^ 1074) q, -1074)
    else
      let shift : Int := 52 - er
      let M0 :=
        if 0 ≤ shift then rne (p * 2 ^ shift.toNat) q
        else rne p (q * 2 ^ (-shift).toNat)
      if M0 = 2 ^ 53 then (2 ^ 52, er - 51)
      else (M0, er - 52)

/-- The double `matchedCount / totalSkills`. -/
def jsDivFl (m t : Nat) : Nat × Int := b64OfRat m t

/-- The double `x * 100` for a non-negative double `x`. -/
def jsMul100Fl (x : Nat × Int) : Nat × Int :=
  if 0 ≤ x.2 then b64OfRat (x.1 * 100 * 2 ^ x.2.toNat) 1
  else b64OfRat (x.1 * 100) (2 ^ (-x.2).toNat)

/-- `Math.round` of a non-negative double: the closest integer, half
toward plus infinity (exact comparison of the fractional part). -/
def jsMathRound (x : Nat × Int) : Nat :=
  if 0 ≤ x.2 then x.1 * 2 ^ x.2.toNat
  else
    let den := 2 ^ (-x.2).toNat
    if 2 * (x.1 % den) ≥ den then x.1 / den + 1 else x.1 / den

/-- `calculateMatchScore(job, userSkills)`, with
`Math.round((matchedCount / totalSkills) * 100)` evaluated in binary64
double precision as the engine does. -/
def calculateMatchScore (job : Job) (userSkills : Skills) : Nat :=
  let jobText := strLower (job.title ++ " " ++ job.description)
  let totalSkills := userSkills.allSkills.length
  if totalSkills = 0 then 50
  else
    let matchedCount := userSkills.allSkills.countP (fun skill => strIncludes jobText (strLower skill))
    let score := jsMathRound (jsMul100Fl (jsDivFl matchedCount totalSkills))
    min 100 (max 0 score)

/-- `findMatchedSkills(job, userSkills)`: the skills found by containment,
in stored order. -/
def findMatchedSkills (job : Job) (userSkills : Skills) : List String :=
  let jobText := strLower (job.title ++ " " ++ job.description)
  userSkills.allSkills.filter (fun skill => strIncludes jobText (strLower skill))

structure MatchedJob extends Job where
  matchScore : Nat
  matchedSkills : List String
  missingSkills : List String
deriving DecidableEq

/-- The per-listing enrichment inside `matchJobsWithResume`
(`{...job, matchScore, matchedSkills, missingSkills}`). -/
def scoreJob (userSkills : Skills) (job : Job) : MatchedJob :=
  let matchedSkills := findMatchedSkills job userSkills
  { toJob := job
    matchScore := calculateMatchScore job userSkills
    matchedSkills := matchedSkills
    missingSkills := userSkills.hardSkills.filter (fun skill => !(matchedSkills.contains skill)) }

/-- One insertion step of the stable descending sort
(`matchedJobs.sort((a, b) => b.matchScore - a.matchScore)`; ECMAScript
requires `Array.prototype.sort` to be stable). -/
def sortInsert (x : MatchedJob) : List MatchedJob → List MatchedJob
  | [] => [x]
  | y :: ys => if y.matchScore ≤ x.matchScore then x :: y :: ys else y :: sortInsert x ys

/-- Stable sort descending by `matchScore` (insertion sort, which realises
exactly the stable order the JS comparator produces). -/
def jsSortByScoreDesc : List MatchedJob → List MatchedJob
  | [] => []
  | x :: xs => sortInsert x (jsSortByScoreDesc xs)

/-- `matchJobsWithResume(resume, options)` with the fetched listings
supplied as an oracle (network collaborator): score every listing, then
sort descending by score. -/
def matchJobsWithResume (resume : ResumeDoc) (fetchedJobs : List Job) : List MatchedJob :=
  let userSkills := extractSkills resume
  let matchedJobs := fetchedJobs.map (scoreJob userSkills)
  jsSortByScoreDesc matchedJobs

/-! Claim-side (spec-worded) definitions, to be compared with the source
embeddings -/

/-- Matched-skill count as worded in the claim: the number of skills in
`allSkills` whose lower-cased text is a substring of the lower-cased
job text. -/
def specMatchedCount (job : Job) (skills : Skills) : Nat :=
  (skills.allSkills.filter
    (fun skill => strIncludes (strLower (job.title ++ " " ++ job.description)) (strLower skill))).length

/-- The shared tail of `analyzeResume` after the reply text is fixed:
parse, normalise, and classify a failure through the outer handler. -/
def analyzeFinish (text : String) : Except String AnalysisResultN :=
  match parseAndNormalize text with
  | Except.ok a => Except.ok a
  | Except.error msg => Except.error (classifyError msg)

/-! Concrete inputs used by counterexamples and witnesses -/

def fiftyCharText : String :=
  "This resume text certainly contains more than fifty characters of content."

def fencedDemo : String := "```json\n\x7b\"matchScore\": 85, \"summary\": \"ok\"\x7d\n```"

def demoNormalized : AnalysisResultN :=
  { matchScore := Json.num 85
    missingKeywords := { hardSkills := Json.arr [], softSkills := Json.arr [],
                         certifications := Json.arr [] }
    foundKeywords := { hardSkills := Json.arr [], softSkills := Json.arr [],
                       certifications := Json.arr [] }
    actionableTips := []
    aiSummary := Json.str "ok" }

/-- Environment of an upload on which extraction and record creation
succeed, the AI analysis fails, and the failed-status save also fails. -/
def c1CexEnv : UploadEnv :=
  { fileProvided := true, fileExt := ".pdf",
    pdfExtract := Except.ok fiftyCharText, docxExtract := Except.ok fiftyCharText,
    jobDescriptionField := none,
    trial := Except.ok (), gen := fun _ => Except.error "backend unreachable",
    createOk := true, saveCompletedOk := true, saveFailedOk := false, unlinkOk := true }

/-- Environment of an upload on which extraction and record creation
succeed, the AI analysis fails, and every store write and unlink would
succeed. -/
def c5Env : UploadEnv :=
  { fileProvided := true, fileExt := ".pdf",
    pdfExtract := Except.ok fiftyCharText, docxExtract := Except.ok fiftyCharText,
    jobDescriptionField := none,
    trial := Except.ok (), gen := fun _ => Except.error "backend exploded",
    createOk := true, saveCompletedOk := true, saveFailedOk := true, unlinkOk := true }

/-- Environment of an upload whose extracted text is shorter than 50
characters. -/
def c9Env : UploadEnv :=
  { fileProvided := true, fileExt := ".pdf",
    pdfExtract := Except.ok "Too short resume text.", docxExtract := Except.ok "",
    jobDescriptionField := none,
    trial := Except.ok (), gen := fun _ => Except.ok "\x7b\x7d",
    createOk := true, saveCompletedOk := true, saveFailedOk := true, unlinkOk := true }

/-- Environment of a fully successful upload. -/
def happyEnv : UploadEnv :=
  { fileProvided := true, fileExt := ".pdf",
    pdfExtract := Except.ok fiftyCharText, docxExtract := Except.ok fiftyCharText,
    jobDescriptionField := some "node developer",
    trial := Except.ok (), gen := fun _ => Except.ok "\x7b\x7d",
    createOk := true, saveCompletedOk := true, saveFailedOk := true, unlinkOk := true }

def mkJob (i t d : String) : Job :=
  { id := i, title := t, company := "", location := "", description := d,
    url := "", salary := "", category := "", source := "" }

/-- Resume with ten skills, so that one matched skill is worth 10 points. -/
def exampleResume : ResumeDoc :=
  { analysis := some
      { foundKeywords := some
          { hardSkills := ["k0x", "k1x", "k2x", "k3x", "k4x"],
            softSkills := ["k5x", "k6x", "k7x", "k8x", "k9x"],
            certifications := [] } } }

/-- Distinct four-character skill tokens (no token is a substring of
another). -/
def c3Tok (i : Nat) : String :=
  "q" ++ (if i < 10 then "0" else "") ++ toString i ++ "x"

/-- A skill set with 40 skills. -/
def c3Skills : Skills :=
  { hardSkills := (List.range 40).map c3Tok, softSkills := [], certifications := [],
    allSkills := (List.range 40).map c3Tok }

/-- A listing whose text contains exactly the first 23 of the 40 skills:
the double product (23/40)*100 evaluates to 57.49999999999999, one side of
the tie, while the exact rational is 57.5. -/
def c3Job : Job := mkJob "jc3" "t" (String.intercalate " " ((List.range 23).map c3Tok))

/-- A backend reply whose actionableTips array contains a null element. -/
def c7CexResp : Json := Json.obj [("actionableTips", Json.arr [Json.null])]

/-- Four listings whose scores against `exampleResume` are 40, 90, 40, 10
in upstream order. -/
def exampleJobs : List Job :=
  [ mkJob "j1" "t1" "k0x k1x k2x k3x",
    mkJob "j2" "t2" "k0x k1x k2x k3x k4x k5x k6x k7x k8x",
    mkJob "j3" "t3" "k0x k1x k2x k4x",
    mkJob "j4" "t4" "k0x" ]

/-! Helper lemmas -/

theorem hasSub_nil_pat (l : List Char) : hasSub l [] = true := by
  cases l <;> simp [hasSub, List.isPrefixOf]

theorem hasSub_of_front {hay pat : List Char} (h : pat.isPrefixOf hay = true) :
    hasSub hay pat = true := by
  cases hay with
  | nil =>
    have : pat = [] := by
      cases pat with
      | nil => rfl
      | cons c t => simp [List.isPrefixOf] at h
    simp [this, hasSub]
  | cons c t => simp [hasSub, h]

theorem hasSub_append_right (a b pat : List Char) (h : hasSub b pat = true) :
    hasSub (a ++ b) pat = true := by
  induction a with
  | nil => exact h
  | cons c a ih => simp [hasSub, ih]

theorem hasSub_append_left (a b pat : List Char) (h : hasSub a pat = true) :
    hasSub (a ++ b) pat = true := by
  induction a with
  | nil =>
    have : pat = [] := by
      cases pat with
      | nil => rfl
      | cons c t => simp [hasSub, List.isEmpty] at h
    simp [this, hasSub_nil_pat]
  | cons c a ih =>
    simp only [hasSub, Bool.or_eq_true] at h
    rcases h with h | h
    · rw [List.isPrefixOf_iff_prefix] at h
      have : pat <+: c :: (a ++ b) := by
        rw [← List.cons_append]
        exact h.trans (List.prefix_append (c :: a) b)
      simp [hasSub, List.isPrefixOf_iff_prefix, this]
    · simp [hasSub, ih h]

theorem lookupField_setField (fs : List (String × Json)) (k : String) (v : Json) :
    lookupField (setField fs k v) k = some v := by
  induction fs with
  | nil => simp [setField, lookupField]
  | cons p rest ih =>
    obtain ⟨k0, w⟩ := p
    by_cases h : k0 = k
    · simp [setField, h, lookupField]
    · simp [setField, h, lookupField, ih]

theorem normalizeTip_obj (fs : List (String × Json)) :
    ∃ out, normalizeTip (Json.obj fs) = Except.ok out ∧
      getField out "category" =
        some (match getField (Json.obj fs) "category" with
          | some (Json.str c) => if validCategories.contains c then Json.str c else Json.str "content"
          | _ => Json.str "content") := by
  refine ⟨_, rfl, ?_⟩
  exact lookupField_setField _ _ _

theorem normalizeTip_ok (tip : Json) (h : tip ≠ Json.null) :
    ∃ o, normalizeTip tip = Except.ok o := by
  cases tip with
  | null => exact absurd rfl h
  | bool b => exact ⟨_, rfl⟩
  | num n => exact ⟨_, rfl⟩
  | str s => exact ⟨_, rfl⟩
  | arr xs => exact ⟨_, rfl⟩
  | obj fs => exact ⟨_, rfl⟩

theorem mapTips_ok (ts : List Json) (h : ∀ t ∈ ts, t ≠ Json.null) :
    ∃ os, mapTips ts = Except.ok os := by
  induction ts with
  | nil => exact ⟨[], rfl⟩
  | cons t ts ih =>
    obtain ⟨o, ho⟩ := normalizeTip_ok t (h t (List.mem_cons_self t ts))
    obtain ⟨os, hos⟩ := ih (fun x hx => h x (List.mem_cons_of_mem t hx))
    refine ⟨o :: os, ?_⟩
    simp [mapTips, ho, hos]

theorem normalizeAnalysis_obj_arr (fields : List (String × Json)) (ts : List Json)
    (hts : getField (Json.obj fields) "actionableTips" = some (Json.arr ts))
    (os : List Json) (hos : mapTips ts = Except.ok os) :
    normalizeAnalysis (Json.obj fields) = Except.ok
      { matchScore := jsOr (getField (Json.obj fields) "matchScore") (Json.num 0)
        missingKeywords :=
          { hardSkills := jsOr (optChain2 (Json.obj fields) "missingKeywords" "hardSkills") (Json.arr [])
            softSkills := jsOr (optChain2 (Json.obj fields) "missingKeywords" "softSkills") (Json.arr [])
            certifications := jsOr (optChain2 (Json.obj fields) "missingKeywords" "certifications") (Json.arr []) }
        foundKeywords :=
          { hardSkills := jsOr (optChain2 (Json.obj fields) "foundKeywords" "hardSkills") (Json.arr [])
            softSkills := jsOr (optChain2 (Json.obj fields) "foundKeywords" "softSkills") (Json.arr [])
            certifications := jsOr (optChain2 (Json.obj fields) "foundKeywords" "certifications") (Json.arr []) }
        actionableTips := os
        aiSummary := jsOr (getField (Json.obj fields) "summary") (Json.str "") } := by
  simp [normalizeAnalysis, hts, jsOr, truthy, hos]

/-! C3 -/

theorem calculateMatchScore_eq (job : Job) (skills : Skills)
    (h : skills.allSkills.length ≠ 0) :
    calculateMatchScore job skills =
      min 100 (max 0 (jsMathRound (jsMul100Fl (jsDivFl
        (skills.allSkills.countP
          (fun skill => strIncludes (strLower (job.title ++ " " ++ job.description)) (strLower skill)))
        skills.allSkills.length)))) := by
  unfold calculateMatchScore
  simp [h]

/-- C3 counterexample: at 23 matched skills out of 40, the double product
`(23/40)*100` evaluates to 57.49999999999999, so the code returns 57,
while the claim's exact `round(100 × 23 / 40)` is 58. -/
theorem calculateMatchScore_round_cex :
    specMatchedCount c3Job c3Skills = 23 ∧
    c3Skills.allSkills.length = 40 ∧
    calculateMatchScore c3Job c3Skills = 57 ∧
    mathRound (100 * specMatchedCount c3Job c3Skills) c3Skills.allSkills.length = 58 ∧
    (57 : Nat) ≠ 58 :=
  ⟨by decide, by decide, by decide, by decide, by decide⟩

/-- C3 (amended): `calculateMatchScore` always yields an integer in
[0, 100] (the result type is `Nat`, so non-negativity is intrinsic); with
an empty skill list it is exactly 50; with a non-empty skill list it
equals `Math.round` of the binary64 double-precision evaluation of
(matchedCount / totalSkillCount) × 100, where matchedCount counts the
skills whose lower-cased text occurs in the lower-cased
title-plus-description text. This coincides with exact
round(100 × matchedCount / totalSkillCount) except where the double
product lands on the other side of a half-integer (e.g. 23 of 40). -/
theorem calculateMatchScore_spec (job : Job) (skills : Skills) :
    calculateMatchScore job skills ≤ 100 ∧
    (skills.allSkills = [] → calculateMatchScore job skills = 50) ∧
    (skills.allSkills ≠ [] →
      calculateMatchScore job skills
        = min 100 (max 0 (jsMathRound (jsMul100Fl (jsDivFl
            (specMatchedCount job skills) skills.allSkills.length))))) := by
  by_cases h : skills.allSkills.length = 0
  · have hnil : skills.allSkills = [] := List.length_eq_zero.mp h
    refine ⟨?_, fun _ => ?_, fun hne => absurd hnil hne⟩
    · unfold calculateMatchScore
      simp [h]
    · unfold calculateMatchScore
      simp [h]
  · refine ⟨?_, fun hnil => absurd (by simp [hnil]) h, fun _ => ?_⟩
    · rw [calculateMatchScore_eq job skills h]
      exact Nat.min_le_left _ _
    · rw [calculateMatchScore_eq job skills h]
      unfold specMatchedCount
      rw [List.countP_eq_length_filter]

/-- Witness for C3 at a concrete listing and skill set. -/
theorem calculateMatchScore_spec_wit :
    calculateMatchScore (mkJob "j1" "t1" "k0x k1x k2x k3x") (extractSkills exampleResume)
      = min 100 (max 0 (jsMathRound (jsMul100Fl (jsDivFl
          (specMatchedCount (mkJob "j1" "t1" "k0x k1x k2x k3x") (extractSkills exampleResume))
          (extractSkills exampleResume).allSkills.length)))) :=
  (calculateMatchScore_spec (mkJob "j1" "t1" "k0x k1x k2x k3x") (extractSkills exampleResume)).2.2
    (by decide)

/-! C2 -/

/-- C2: the fallback tier is selected for the actual request exactly when
the trial round trip fails with a message containing `429` or `quota`; a
successful trial keeps the primary tier; and a trial failure without the
quota signal makes the whole `analyze` call fail with that error (as
classified by the outer handler), for every possible reply of the actual
request. Tier selection is a pure function of the present trial outcome
(the `useGemma` flag is local to each call), so nothing is cached across
calls. -/
theorem analyzeResume_trial_selection (trial : Except String Unit)
    (gen : String → Except String String) (rt jd : String) :
    (selectFallback trial = Except.ok true ↔ ∃ m, trial = Except.error m ∧ quotaSignal m = true) ∧
    (selectFallback trial = Except.ok false ↔ trial = Except.ok ()) ∧
    (∀ m, trial = Except.error m → quotaSignal m = false →
      analyzeResume trial gen rt jd = Except.error (classifyError m)) := by
  cases trial with
  | ok u =>
    cases u
    refine ⟨?_, ?_, ?_⟩
    · simp [selectFallback]
    · simp [selectFallback]
    · intro m hm
      exact absurd hm (by simp)
  | error m0 =>
    cases hq : quotaSignal m0 with
    | true =>
      refine ⟨?_, ?_, ?_⟩
      · simp only [selectFallback, hq, if_true]
        constructor
        · intro _
          exact ⟨m0, rfl, hq⟩
        · intro _
          trivial
      · simp [selectFallback, hq]
      · intro m hm hqm
        injection hm with h
        subst h
        rw [hq] at hqm
        cases hqm
    | false =>
      refine ⟨?_, ?_, ?_⟩
      · simp [selectFallback, hq]
      · simp [selectFallback, hq]
      · intro m hm _
        injection hm with h
        subst h
        simp [analyzeResume, analyzeAttempt, selectFallback, hq]

/-- Witness for C2: a trial failure without the quota signal terminates the
call with that error. -/
theorem analyzeResume_trial_selection_wit :
    analyzeResume (Except.error "ECONNRESET") (fun _ => Except.ok "\x7b\x7d") "r" ""
      = Except.error (classifyError "ECONNRESET") :=
  (analyzeResume_trial_selection (Except.error "ECONNRESET")
    (fun _ => Except.ok "\x7b\x7d") "r" "").2.2 "ECONNRESET" rfl (by decide)

/-! C7 -/

/-- C7 counterexample: a backend reply whose actionableTips array contains
a null element makes the whole analysis fail (the JS `tip.category` access
throws on null), instead of yielding a tip with category `content` as the
claim states. -/
theorem actionableTips_null_cex :
    normalizeAnalysis c7CexResp = Except.error "Cannot read properties of null" ∧
    (∀ r, normalizeAnalysis c7CexResp ≠ Except.ok r) := by
  refine ⟨rfl, ?_⟩
  intro r h
  rw [show normalizeAnalysis c7CexResp = Except.error "Cannot read properties of null" from rfl]
    at h
  exact Except.noConfusion h

/-- C7 (amended): for every non-null tip in the actionableTips array, a
`category` among the five valid values is passed through unchanged, and an
absent `category` or any other value yields `content`; an array of
non-null tips always normalises without failing the analysis. A null tip
element, however, throws on the `tip.category` access and fails the whole
analysis. -/
theorem actionableTips_category_coercion (tip resp : Json) (ts : List Json) :
    (∀ c : String, getField tip "category" = some (Json.str c) →
      validCategories.contains c = true →
      ∃ out, normalizeTip tip = Except.ok out ∧
        getField out "category" = some (Json.str c)) ∧
    (∀ v : Json, getField tip "category" = some v →
      (∀ c : String, v = Json.str c → validCategories.contains c = false) →
      ∃ out, normalizeTip tip = Except.ok out ∧
        getField out "category" = some (Json.str "content")) ∧
    (tip ≠ Json.null → getField tip "category" = none →
      ∃ out, normalizeTip tip = Except.ok out ∧
        getField out "category" = some (Json.str "content")) ∧
    ((∀ t ∈ ts, t ≠ Json.null) → getField resp "actionableTips" = some (Json.arr ts) →
      ∃ r, normalizeAnalysis resp = Except.ok r ∧ mapTips ts = Except.ok r.actionableTips) ∧
    (normalizeTip Json.null = Except.error "Cannot read properties of null") := by
  refine ⟨?_, ?_, ?_, ?_, rfl⟩
  · intro c hc hval
    cases tip with
    | obj fs =>
      obtain ⟨out, ho, hcat⟩ := normalizeTip_obj fs
      refine ⟨out, ho, ?_⟩
      rw [hcat, hc]
      show some (if validCategories.contains c then Json.str c else Json.str "content")
        = some (Json.str c)
      rw [hval]
      rfl
    | null => simp [getField] at hc
    | bool b => simp [getField] at hc
    | num n => simp [getField] at hc
    | str s => simp [getField] at hc
    | arr xs => simp [getField] at hc
  · intro v hv hinval
    cases tip with
    | obj fs =>
      obtain ⟨out, ho, hcat⟩ := normalizeTip_obj fs
      refine ⟨out, ho, ?_⟩
      rw [hcat, hv]
      cases v with
      | str c =>
        show some (if validCategories.contains c then Json.str c else Json.str "content")
          = some (Json.str "content")
        rw [hinval c rfl]
        rfl
      | null => rfl
      | bool b => rfl
      | num n => rfl
      | arr xs => rfl
      | obj gs => rfl
    | null => simp [getField] at hv
    | bool b => simp [getField] at hv
    | num n => simp [getField] at hv
    | str s => simp [getField] at hv
    | arr xs => simp [getField] at hv
  · intro hnn hnone
    cases tip with
    | null => exact absurd rfl hnn
    | obj fs =>
      obtain ⟨out, ho, hcat⟩ := normalizeTip_obj fs
      refine ⟨out, ho, ?_⟩
      rw [hcat, hnone]
    | bool b =>
      refine ⟨_, rfl, ?_⟩
      exact lookupField_setField _ _ _
    | num n =>
      refine ⟨_, rfl, ?_⟩
      exact lookupField_setField _ _ _
    | str s =>
      refine ⟨_, rfl, ?_⟩
      exact lookupField_setField _ _ _
    | arr xs =>
      refine ⟨_, rfl, ?_⟩
      exact lookupField_setField _ _ _
  · intro hnull hts
    obtain ⟨os, hos⟩ := mapTips_ok ts hnull
    cases resp with
    | obj fields =>
      exact ⟨_, normalizeAnalysis_obj_arr fields ts hts os hos, hos⟩
    | null => simp [getField] at hts
    | bool b => simp [getField] at hts
    | num n => simp [getField] at hts
    | str s => simp [getField] at hts
    | arr xs => simp [getField] at hts

/-- Witness for C7: an invalid category on a non-null tip is coerced to
`content` without failing. -/
theorem actionableTips_category_coercion_wit :
    ∃ out, normalizeTip (Json.obj [("category", Json.str "weird")]) = Except.ok out ∧
      getField out "category" = some (Json.str "content") :=
  (actionableTips_category_coercion (Json.obj [("category", Json.str "weird")])
      (Json.obj []) []).2.1 (Json.str "weird") rfl
    (fun c hc => by injection hc with h; subst h; decide)

/-! C4 -/

/-- C4 counterexample: the backend field `matchScore: "high"` is non-numeric
yet truthy, so `aiResponse.matchScore || 0` passes it through unchanged
instead of defaulting it to 0 as the claim states. -/
theorem normalizeAnalysis_matchScore_cex :
    ∃ r, normalizeAnalysis (Json.obj [("matchScore", Json.str "high")]) = Except.ok r ∧
      r.matchScore = Json.str "high" ∧ r.matchScore ≠ Json.num 0 := by
  refine ⟨_, rfl, rfl, ?_⟩
  intro h
  exact Json.noConfusion h

/-- C4 (amended): whenever normalisation succeeds, each of the six keyword
buckets defaults to the empty sequence when the corresponding field is
absent, `summary` defaults to the empty string when absent, and
`matchScore` defaults to 0 when the field is absent or JS-falsy (0, null,
false or the empty string); a truthy value — numeric or not — is passed
through unchanged. -/
theorem normalizeAnalysis_defaults (resp : Json) (r : AnalysisResultN)
    (h : normalizeAnalysis resp = Except.ok r) :
    (optChain2 resp "missingKeywords" "hardSkills" = none → r.missingKeywords.hardSkills = Json.arr []) ∧
    (optChain2 resp "missingKeywords" "softSkills" = none → r.missingKeywords.softSkills = Json.arr []) ∧
    (optChain2 resp "missingKeywords" "certifications" = none → r.missingKeywords.certifications = Json.arr []) ∧
    (optChain2 resp "foundKeywords" "hardSkills" = none → r.foundKeywords.hardSkills = Json.arr []) ∧
    (optChain2 resp "foundKeywords" "softSkills" = none → r.foundKeywords.softSkills = Json.arr []) ∧
    (optChain2 resp "foundKeywords" "certifications" = none → r.foundKeywords.certifications = Json.arr []) ∧
    (getField resp "summary" = none → r.aiSummary = Json.str "") ∧
    (getField resp "matchScore" = none → r.matchScore = Json.num 0) ∧
    (∀ v, getField resp "matchScore" = some v → truthy v = false → r.matchScore = Json.num 0) ∧
    (∀ v, getField resp "matchScore" = some v → truthy v = true → r.matchScore = v) := by
  unfold normalizeAnalysis at h
  split at h
  · cases h
  · split at h
    · split at h
      · cases h
      · injection h with h'
        subst h'
        refine ⟨?_, ?_, ?_, ?_, ?_, ?_, ?_, ?_, ?_, ?_⟩
        · intro he; simp [he, jsOr]
        · intro he; simp [he, jsOr]
        · intro he; simp [he, jsOr]
        · intro he; simp [he, jsOr]
        · intro he; simp [he, jsOr]
        · intro he; simp [he, jsOr]
        · intro he; simp [he, jsOr]
        · intro he; simp [he, jsOr]
        · intro v hv htr; simp [hv, jsOr, htr]
        · intro v hv htr; simp [hv, jsOr, htr]
    · cases h

/-- Witness for C4 (amended) on a backend reply with no fields at all. -/
theorem normalizeAnalysis_defaults_wit :
    ∃ r, normalizeAnalysis (Json.obj []) = Except.ok r ∧
      r.matchScore = Json.num 0 ∧ r.aiSummary = Json.str "" := by
  refine ⟨_, rfl, ?_, ?_⟩
  · exact (normalizeAnalysis_defaults (Json.obj []) _ rfl).2.2.2.2.2.2.2.1 rfl
  · exact (normalizeAnalysis_defaults (Json.obj []) _ rfl).2.2.2.2.2.2.1 rfl

/-! C10 -/

/-- C10: an empty-string job description yields exactly the prompt of an
omitted job description (the default), the prompt with a job description
equals the omitted-job-description prompt exactly when the job description
is the empty string, the compatibility-framing block is present whenever
the job description is non-empty, and the same holds at the `analyzeResume`
call boundary. -/
theorem buildAnalysisPrompt_emptyJd (r jd : String) :
    (buildAnalysisPrompt r "" = buildAnalysisPrompt r) ∧
    ((buildAnalysisPrompt r jd = buildAnalysisPrompt r) ↔ jd = "") ∧
    (jd ≠ "" → strIncludes (buildAnalysisPrompt r jd) "**JOB DESCRIPTION:**" = true) ∧
    (∀ trial gen, analyzeResume trial gen r "" = analyzeResume trial gen r) := by
  refine ⟨rfl, ?_, ?_, fun _ _ => rfl⟩
  · constructor
    · intro heq
      by_contra hne
      have hlen := congrArg String.length heq
      simp [buildAnalysisPrompt, jobDescriptionSection, hne, String.length_append] at hlen
      exact absurd hlen.1.1 (by decide)
    · intro h
      subst h
      rfl
  · intro hne
    unfold strIncludes
    simp only [buildAnalysisPrompt, if_neg hne, jobDescriptionSection, String.data_append]
    exact hasSub_append_left _ _ _
      (hasSub_append_right _ _ _
        (hasSub_append_left _ _ _
          (hasSub_append_left _ _ _
            (hasSub_of_front (by decide)))))

/-- Witness for C10: a non-empty job description puts the
compatibility-framing block into the prompt. -/
theorem buildAnalysisPrompt_emptyJd_wit :
    strIncludes (buildAnalysisPrompt "sample resume" "node developer") "**JOB DESCRIPTION:**"
      = true :=
  (buildAnalysisPrompt_emptyJd "sample resume" "node developer").2.2.1 (by decide)

/-! C6 -/

theorem mem_sortInsert (x y : MatchedJob) (l : List MatchedJob) :
    y ∈ sortInsert x l ↔ y = x ∨ y ∈ l := by
  induction l with
  | nil => simp [sortInsert]
  | cons z zs ih =>
    by_cases h : z.matchScore ≤ x.matchScore
    · simp only [sortInsert, if_pos h, List.mem_cons]
    · simp only [sortInsert, if_neg h, List.mem_cons, ih]
      tauto

theorem pairwise_sortInsert (x : MatchedJob) (l : List MatchedJob)
    (h : l.Pairwise (fun a b => b.matchScore ≤ a.matchScore)) :
    (sortInsert x l).Pairwise (fun a b => b.matchScore ≤ a.matchScore) := by
  induction l with
  | nil => simp [sortInsert]
  | cons y ys ih =>
    rw [List.pairwise_cons] at h
    obtain ⟨hy, hys⟩ := h
    by_cases hc : y.matchScore ≤ x.matchScore
    · simp only [sortInsert, if_pos hc]
      rw [List.pairwise_cons]
      refine ⟨?_, ?_⟩
      · intro z hz
        rcases List.mem_cons.mp hz with rfl | hz'
        · exact hc
        · exact le_trans (hy z hz') hc
      · rw [List.pairwise_cons]
        exact ⟨hy, hys⟩
    · simp only [sortInsert, if_neg hc]
      rw [List.pairwise_cons]
      refine ⟨?_, ih hys⟩
      intro z hz
      rcases (mem_sortInsert x z ys).mp hz with rfl | hz'
      · exact Nat.le_of_lt (Nat.not_le.mp hc)
      · exact hy z hz'

theorem pairwise_jsSort (l : List MatchedJob) :
    (jsSortByScoreDesc l).Pairwise (fun a b => b.matchScore ≤ a.matchScore) := by
  induction l with
  | nil => simp [jsSortByScoreDesc]
  | cons x xs ih =>
    simp only [jsSortByScoreDesc]
    exact pairwise_sortInsert x _ ih

theorem filter_sortInsert (x : MatchedJob) (l : List MatchedJob) (s : Nat) :
    (sortInsert x l).filter (fun j => j.matchScore == s)
      = (x :: l).filter (fun j => j.matchScore == s) := by
  induction l with
  | nil => rfl
  | cons y ys ih =>
    by_cases hc : y.matchScore ≤ x.matchScore
    · simp only [sortInsert, if_pos hc]
    · simp only [sortInsert, if_neg hc]
      rw [List.filter_cons, ih]
      conv_rhs => rw [List.filter_cons]
      rw [List.filter_cons, List.filter_cons]
      cases hpx : (x.matchScore == s) <;> cases hpy : (y.matchScore == s)
      · simp [hpx, hpy]
      · simp [hpx, hpy]
      · simp [hpx, hpy]
      · exfalso
        have hx : x.matchScore = s := by simpa using hpx
        have hy2 : y.matchScore = s := by simpa using hpy
        omega

theorem filter_jsSort (l : List MatchedJob) (s : Nat) :
    (jsSortByScoreDesc l).filter (fun j => j.matchScore == s)
      = l.filter (fun j => j.matchScore == s) := by
  induction l with
  | nil => rfl
  | cons x xs ih =>
    simp only [jsSortByScoreDesc]
    rw [filter_sortInsert]
    simp only [List.filter_cons, ih]

/-- C6: the ranked output of `matchJobsWithResume` is sorted descending by
`matchScore`; for every score value the listings carrying that score appear
in exactly the order the upstream source returned them (stable sort); and
on the concrete inputs with upstream scores [40, 90, 40, 10] the output is
[90, 40, 40, 10] with the two 40-scored listings in their original
relative order (j1 before j3). -/
theorem matchJobsWithResume_ranking (resume : ResumeDoc) (fetchedJobs : List Job) (s : Nat) :
    (matchJobsWithResume resume fetchedJobs).Pairwise (fun a b => b.matchScore ≤ a.matchScore) ∧
    ((matchJobsWithResume resume fetchedJobs).filter (fun j => j.matchScore == s)
      = (fetchedJobs.map (scoreJob (extractSkills resume))).filter (fun j => j.matchScore == s)) ∧
    ((exampleJobs.map (fun j => calculateMatchScore j (extractSkills exampleResume)))
      = [40, 90, 40, 10]) ∧
    ((matchJobsWithResume exampleResume exampleJobs).map (fun j => (j.id, j.matchScore))
      = [("j2", 90), ("j1", 40), ("j3", 40), ("j4", 10)]) := by
  refine ⟨?_, ?_, ?_, ?_⟩
  · exact pairwise_jsSort _
  · exact filter_jsSort _ _
  · rfl
  · rfl

/-! C8 — fence stripping only in fallback mode -/

theorem dropWhile_append_fence (l : List Char) :
    (l ++ fenceDelim).dropWhile jsWs = l.dropWhile jsWs ++ fenceDelim := by
  induction l with
  | nil => rfl
  | cons c l ih =>
    by_cases h : jsWs c = true
    · simp [List.dropWhile_cons, h, ih]
    · simp [List.dropWhile_cons, h]

theorem splitAtTriple_exact (l : List Char)
    (h : hasSub (l ++ [backtick, backtick]) fenceDelim = false) :
    splitAtTriple (l ++ fenceDelim) = some l := by
  induction l with
  | nil => rfl
  | cons c l ih =>
    rw [List.cons_append] at h
    simp only [hasSub, Bool.or_eq_false_iff] at h
    obtain ⟨hpre, htail⟩ := h
    have hg : fenceDelim.isPrefixOf (c :: (l ++ fenceDelim)) = false := by
      cases l with
      | nil => simp_all [fenceDelim, List.isPrefixOf]
      | cons d l' =>
        cases l' with
        | nil => simp_all [fenceDelim, List.isPrefixOf]
        | cons e l'' => simp_all [fenceDelim, List.isPrefixOf]
    rw [List.cons_append]
    simp only [splitAtTriple, hg, Bool.false_eq_true, if_false]
    rw [ih htail]
    rfl

theorem suffix_no_fence {t l : List Char}
    (hsuf : l <:+ t)
    (h : hasSub (t ++ [backtick, backtick]) fenceDelim = false) :
    hasSub (l ++ [backtick, backtick]) fenceDelim = false := by
  cases hval : hasSub (l ++ [backtick, backtick]) fenceDelim with
  | false => rfl
  | true =>
    obtain ⟨pre, hpre⟩ := hsuf
    have hbig := hasSub_append_right pre _ _ hval
    rw [← List.append_assoc, hpre] at hbig
    rw [h] at hbig
    cases hbig

theorem trimChars_dropWhile (l : List Char) :
    trimChars (l.dropWhile jsWs) = trimChars l := by
  unfold trimChars
  rw [List.dropWhile_idempotent]

theorem fenceMatchAux_hit (c : Char) (cs cap : List Char)
    (hopen : fenceDelim.isPrefixOf (c :: cs) = true)
    (hsplit : splitAtTriple
      ((if jsonTag.isPrefixOf ((c :: cs).drop 3) then ((c :: cs).drop 3).drop 4
        else (c :: cs).drop 3).dropWhile jsWs) = some cap) :
    fenceMatchAux (c :: cs) = some cap := by
  rw [fenceMatchAux, if_pos hopen]
  show (match splitAtTriple
          ((if jsonTag.isPrefixOf ((c :: cs).drop 3) then ((c :: cs).drop 3).drop 4
            else (c :: cs).drop 3).dropWhile jsWs) with
        | some cap => some cap
        | none => fenceMatchAux cs) = some cap
  rw [hsplit]

theorem fenceMatchAux_tagged (t : List Char)
    (h : hasSub (t ++ [backtick, backtick]) fenceDelim = false) :
    fenceMatchAux (fenceDelim ++ (jsonTag ++ (t ++ fenceDelim))) = some (t.dropWhile jsWs) := by
  show fenceMatchAux (backtick :: (backtick :: backtick :: (jsonTag ++ (t ++ fenceDelim))))
    = some (t.dropWhile jsWs)
  apply fenceMatchAux_hit
  · simp [fenceDelim, List.isPrefixOf]
  · show splitAtTriple
        ((if jsonTag.isPrefixOf (jsonTag ++ (t ++ fenceDelim))
          then (jsonTag ++ (t ++ fenceDelim)).drop 4
          else jsonTag ++ (t ++ fenceDelim)).dropWhile jsWs) = some (t.dropWhile jsWs)
    have htag : jsonTag.isPrefixOf (jsonTag ++ (t ++ fenceDelim)) = true := by
      rw [List.isPrefixOf_iff_prefix]
      exact List.prefix_append _ _
    rw [if_pos htag]
    show splitAtTriple ((t ++ fenceDelim).dropWhile jsWs) = some (t.dropWhile jsWs)
    rw [dropWhile_append_fence,
      splitAtTriple_exact _ (suffix_no_fence (List.dropWhile_suffix jsWs) h)]

theorem fenceMatchAux_untagged (t : List Char)
    (h : hasSub (t ++ [backtick, backtick]) fenceDelim = false)
    (hj : jsonTag.isPrefixOf (t ++ fenceDelim) = false) :
    fenceMatchAux (fenceDelim ++ (t ++ fenceDelim)) = some (t.dropWhile jsWs) := by
  show fenceMatchAux (backtick :: (backtick :: backtick :: (t ++ fenceDelim)))
    = some (t.dropWhile jsWs)
  apply fenceMatchAux_hit
  · simp [fenceDelim, List.isPrefixOf]
  · show splitAtTriple
        ((if jsonTag.isPrefixOf (t ++ fenceDelim)
          then (t ++ fenceDelim).drop 4
          else t ++ fenceDelim).dropWhile jsWs) = some (t.dropWhile jsWs)
    rw [if_neg (by simp [hj])]
    rw [dropWhile_append_fence,
      splitAtTriple_exact _ (suffix_no_fence (List.dropWhile_suffix jsWs) h)]

theorem stripFence_fenced_json (t : String)
    (h : hasSub (t.data ++ [backtick, backtick]) fenceDelim = false) :
    stripFence ("```json" ++ t ++ "```") = jsTrim t := by
  unfold stripFence
  have hdata : ("```json" ++ t ++ "```").data
      = fenceDelim ++ (jsonTag ++ (t.data ++ fenceDelim)) := by
    simp only [String.data_append, List.append_assoc]
    rfl
  rw [hdata, fenceMatchAux_tagged t.data h]
  unfold jsTrim
  show String.mk (trimChars (t.data.dropWhile jsWs)) = String.mk (trimChars t.data)
  rw [trimChars_dropWhile]

theorem stripFence_fenced_plain (t : String)
    (h : hasSub (t.data ++ [backtick, backtick]) fenceDelim = false)
    (hj : jsonTag.isPrefixOf (t.data ++ fenceDelim) = false) :
    stripFence ("```" ++ t ++ "```") = jsTrim t := by
  unfold stripFence
  have hdata : ("```" ++ t ++ "```").data = fenceDelim ++ (t.data ++ fenceDelim) := by
    simp only [String.data_append, List.append_assoc]
    rfl
  rw [hdata, fenceMatchAux_untagged t.data h hj]
  unfold jsTrim
  show String.mk (trimChars (t.data.dropWhile jsWs)) = String.mk (trimChars t.data)
  rw [trimChars_dropWhile]

/-- C8: code-fence stripping happens only in fallback mode. In fallback
mode a reply wrapped in triple-backtick fencing (with or without the
`json` tag) is reduced to its trimmed inner text before JSON parsing; on
the primary path the raw reply is parsed as-is, with no fence handling.
Concretely, a fenced reply holding valid JSON yields the normalised
result in fallback mode and an invalid-JSON failure on the primary path. -/
theorem analyze_fence_only_fallback (t m rt jd : String)
    (hq : quotaSignal m = true)
    (ht : hasSub (t.data ++ [backtick, backtick]) fenceDelim = false) :
    (stripFence ("```json" ++ t ++ "```") = jsTrim t) ∧
    (jsonTag.isPrefixOf (t.data ++ fenceDelim) = false →
      stripFence ("```" ++ t ++ "```") = jsTrim t) ∧
    (analyzeResume (Except.error m) (fun _ => Except.ok ("```json" ++ t ++ "```")) rt jd
      = analyzeFinish (jsTrim t)) ∧
    (∀ s : String, analyzeResume (Except.ok ()) (fun _ => Except.ok s) rt jd
      = analyzeFinish s) ∧
    (analyzeResume (Except.error m) (fun _ => Except.ok fencedDemo) rt jd
      = Except.ok demoNormalized) ∧
    (analyzeResume (Except.ok ()) (fun _ => Except.ok fencedDemo) rt jd
      = Except.error "AI analysis failed: AI returned invalid JSON response") := by
  refine ⟨stripFence_fenced_json t ht, fun hj => stripFence_fenced_plain t ht hj, ?_, ?_, ?_, ?_⟩
  · simp only [analyzeResume, analyzeAttempt, selectFallback, hq, if_true,
      stripFence_fenced_json t ht, analyzeFinish]
  · intro s
    rfl
  · simp only [analyzeResume, analyzeAttempt, selectFallback, hq, if_true]
    rfl
  · rfl

/-- Witness for C8 at a concrete fenced JSON reply. -/
theorem analyze_fence_only_fallback_wit :
    analyzeResume (Except.error "429 rate limited")
        (fun _ => Except.ok ("```json" ++ "\x7b\"matchScore\": 40\x7d" ++ "```")) "r" ""
      = analyzeFinish (jsTrim "\x7b\"matchScore\": 40\x7d") :=
  (analyze_fence_only_fallback "\x7b\"matchScore\": 40\x7d" "429 rate limited" "r" ""
    (by decide) (by decide)).2.2.1

/-! C1 — lifecycle terminality -/

/-- C1 counterexample: when the AI analysis fails and the subsequent
failed-status save itself rejects, the invocation returns 500 from the
outer catch with the persisted record still in `processing`. -/
theorem uploadResume_processing_cex :
    (uploadResume c1CexEnv).record.map (fun rec => rec.status) = some RStatus.processing ∧
    RStatus.processing ≠ RStatus.completed ∧ RStatus.processing ≠ RStatus.failed :=
  ⟨rfl, by decide, by decide⟩

/-- C1 (amended): provided every record-store save invoked on the record
succeeds, each invocation of the upload pipeline terminates either with no
record (extraction-stage abort or failed creation) or with the record in a
terminal status (`completed` or `failed`); no such path returns with the
record still in `processing`. -/
theorem uploadResume_terminal (env : UploadEnv)
    (h1 : env.saveCompletedOk = true) (h2 : env.saveFailedOk = true) :
    (uploadResume env).record = none ∨
    ∃ rec, (uploadResume env).record = some rec ∧
      (rec.status = RStatus.completed ∨ rec.status = RStatus.failed) := by
  unfold uploadResume
  split
  · exact Or.inl rfl
  · split
    · exact Or.inl rfl
    · split
      · exact Or.inl rfl
      · split
        · simp only [h1, if_true]
          exact Or.inr ⟨_, rfl, Or.inl rfl⟩
        · simp only [h2, if_true]
          exact Or.inr ⟨_, rfl, Or.inr rfl⟩

/-- Witness for C1 (amended) on a fully successful upload. -/
theorem uploadResume_terminal_wit :
    (uploadResume happyEnv).record = none ∨
    ∃ rec, (uploadResume happyEnv).record = some rec ∧
      (rec.status = RStatus.completed ∨ rec.status = RStatus.failed) :=
  uploadResume_terminal happyEnv rfl rfl

/-! C5 — temporary-file cleanup -/

/-- C5 (code bug evidence): on the AI-failure path with a successful
failed-status save, the handler returns 500 from the inner catch before
the cleanup step, so the temporary upload file is never deleted even
though the unlink itself would have succeeded. -/
theorem uploadResume_tempfile_leak :
    (uploadResume c5Env).tempFileRemains = true ∧
    (uploadResume c5Env).record.map (fun rec => rec.status) = some RStatus.failed ∧
    (uploadResume c5Env).httpStatus = 500 ∧
    c5Env.unlinkOk = true ∧
    (uploadResume happyEnv).tempFileRemains = false :=
  ⟨rfl, rfl, rfl, rfl, rfl⟩

/-! C9 — TextTooShort before record creation -/

/-- C9: for a supported file whose extracted text normalises to fewer than
50 characters, extraction fails with the TextTooShort error, and the
invocation terminates with no record persisted. -/
theorem parseResume_textTooShort (env : UploadEnv) (raw : String)
    (hf : env.fileProvided = true)
    (hext : (strLower env.fileExt = ".pdf" ∧ env.pdfExtract = Except.ok raw) ∨
            (strLower env.fileExt = ".docx" ∧ env.docxExtract = Except.ok raw))
    (hshort : (normalizeWs raw).length < 50) :
    parseResume env.fileExt env.pdfExtract env.docxExtract
      = Except.error "Could not extract meaningful text from the file." ∧
    (uploadResume env).record = none := by
  have hp : parseResume env.fileExt env.pdfExtract env.docxExtract
      = Except.error "Could not extract meaningful text from the file." := by
    rcases hext with ⟨he, hraw⟩ | ⟨he, hraw⟩
    · simp [parseResume, he, hraw, parsePDF, hshort]
    · simp [parseResume, he, hraw, parseDOCX, hshort]
  refine ⟨hp, ?_⟩
  unfold uploadResume
  rw [if_neg (by simp [hf]), hp]

/-- Witness for C9: a 22-character extraction aborts with no record. -/
theorem parseResume_textTooShort_wit :
    parseResume c9Env.fileExt c9Env.pdfExtract c9Env.docxExtract
      = Except.error "Could not extract meaningful text from the file." ∧
    (uploadResume c9Env).record = none :=
  parseResume_textTooShort c9Env "Too short resume text." rfl
    (Or.inl ⟨by decide, rfl⟩) (by decide)

end ResumeAnalyzer
